import Mathlib

set_option maxHeartbeats 1000000

/-!
Shallow embedding of the request-admission and artifact-lifecycle core of
the edge TTS HTTP service (src/app.py), with theorems checking the
specification claims against it.

Conventions: machine timestamps are integers counting seconds, so the
Python comparison against timedelta(hours=1) becomes a comparison against
3600; Python strings are embedded as List Char (len counts code points,
exactly as Python len does); the dynamic JSON payload is a record of
optional fields, with data.get defaults applied explicitly.
-/

namespace TTSCore

/-!
### Rate limiter (src/app.py lines 67 to 86, rate_limit_check)

The per-key state is the list of request timestamps, in append order.
-/

/-- One hour in seconds: the sliding-window width, timedelta(hours=1). -/
def windowSeconds : Int := 3600

/-- The per-key ceiling: 60 requests per rolling hour. -/
def rateCeiling : Nat := 60

/-- The pruning comprehension of rate_limit_check: keep exactly those
timestamps with current_time - req_time < timedelta(hours=1). -/
def pruneWindow (now : Int) (w : List Int) : List Int :=
  w.filter (fun t => now - t < windowSeconds)

/-- rate_limit_check restricted to one key window: prune, then reject when
the remaining count reached the ceiling, else append the current timestamp
and accept.  Returns (accepted, new stored window). -/
def rate_limit_check (now : Int) (w : List Int) : Bool × List Int :=
  let pruned := pruneWindow now w
  if pruned.length ≥ rateCeiling then (false, pruned)
  else (true, pruned ++ [now])

/-- A sequence of calls for one client key: each call time is processed in
order through rate_limit_check; returns the admission results and the
final stored window. -/
def runCalls (w : List Int) : List Int → List Bool × List Int
  | [] => ([], w)
  | t :: ts =>
    let r := rate_limit_check t w
    let rest := runCalls r.2 ts
    (r.1 :: rest.1, rest.2)

/-!
### Request normalizer (src/app.py lines 114 to 196, the speak endpoint)

Text is embedded as List Char, so Python len counts code points exactly
as the source does.  The dynamic JSON payload becomes a record of
optional fields, with the data.get defaults applied where the source
applies them.
-/

/-- Code points of a string literal. -/
def chars (s : String) : List Char := s.data

/-- MAX_TEXT_LENGTH (src/app.py line 25). -/
def MAX_TEXT_LENGTH : Nat := 5000

/-- The parsed JSON body of POST /speak, one optional field per key the
source reads; robotic is the truthiness of the robotic field. -/
structure SpeakRequest where
  text : Option (List Char)
  voice : Option String
  rate : Option String
  pitch : Option String
  volume : Option String
  robotic : Bool
  deriving DecidableEq

/-- The 400-class validation errors of the speak endpoint, with the extra
payload fields the source puts in the JSON error body. -/
inductive SpeakError where
  | missingField
  | textTooLong
  | invalidVoice (allowed : List String)
  | invalidMarkup (correction : List Char)
  deriving DecidableEq

/-- The canonical validated job handed to generate_audio: final text,
voice, the three prosody parameters (set to None together on the raw
markup path, as line 185 of the source does), and the markup flag. -/
structure SynthesisJob where
  finalText : List Char
  voice : String
  rate : Option String
  pitch : Option String
  volume : Option String
  isRawMarkup : Bool
  deriving DecidableEq

instance : DecidableEq (Except SpeakError SynthesisJob) := fun x y =>
  match x, y with
  | .error a, .error b =>
    if h : a = b then .isTrue (congrArg Except.error h)
    else .isFalse fun hc => h (Except.error.inj hc)
  | .ok a, .ok b =>
    if h : a = b then .isTrue (congrArg Except.ok h)
    else .isFalse fun hc => h (Except.ok.inj hc)
  | .error _, .ok _ => .isFalse fun hc => Except.noConfusion hc
  | .ok _, .error _ => .isFalse fun hc => Except.noConfusion hc

/-- valid_voices (src/app.py lines 143 to 144). -/
def valid_voices : List String :=
  ["en-US-SteffanNeural", "en-US-RogerMultilingualNeural",
   "en-US-ChristopherNeural", "en-US-JennyNeural"]

/-- rate_map (src/app.py line 152). -/
def rate_map : List (String × String) :=
  [("x-slow", "-50%"), ("slow", "-25%"), ("medium", "+0%"),
   ("fast", "+25%"), ("x-fast", "+50%")]

/-- pitch_map (src/app.py line 153). -/
def pitch_map : List (String × String) :=
  [("x-low", "-50Hz"), ("low", "-25Hz"), ("medium", "+0Hz"),
   ("high", "+25Hz"), ("x-high", "+50Hz")]

/-- volume_map (src/app.py line 154). -/
def volume_map : List (String × String) :=
  [("silent", "-100%"), ("x-soft", "-50%"), ("soft", "-25%"),
   ("medium", "+0%"), ("loud", "+25%"), ("x-loud", "+50%")]

/-- The conversion step of lines 157 to 162: replace the value through the
table when it is a key, otherwise leave it entirely unchanged. -/
def applyMap (m : List (String × String)) (v : String) : String :=
  match m.lookup v with
  | some w => w
  | none => v

/-- Python str.strip(): drop leading and trailing whitespace. -/
def pyStrip (cs : List Char) : List Char :=
  ((cs.dropWhile Char.isWhitespace).reverse.dropWhile Char.isWhitespace).reverse

/-- True when a closing angle bracket occurs in the list; the characters
before the first one are then all non-bracket, so this is exactly the
regex fragment that matches zero or more non-bracket characters followed
by a closing bracket. -/
def scanGt : List Char → Bool
  | [] => false
  | c :: rest => if c = '>' then true else scanGt rest

/-- The tail of the tag regex of line 174 after the opening bracket: one
or more non-bracket characters, then the closing bracket. -/
def tagTail : List Char → Bool
  | [] => false
  | c :: rest => decide (c ≠ '>') && scanGt rest

/-- re.search of the tag pattern of line 174: some tag-shaped substring
occurs in the text. -/
def hasTag : List Char → Bool
  | [] => false
  | c :: rest => (decide (c = '<') && tagTail rest) || hasTag rest

/-- Case-insensitive character match, as re.IGNORECASE compares. -/
def chEqCI (a b : Char) : Bool := a.toLower = b.toLower

/-- Match the five letters of the word speak case-insensitively at the
head; returns the remainder on a match. -/
def speakHead : List Char → Option (List Char)
  | s :: p :: e :: a :: k :: rest =>
    if chEqCI s 's' && chEqCI p 'p' && chEqCI e 'e' &&
       chEqCI a 'a' && chEqCI k 'k' then some rest else none
  | _ => none

/-- re.search of the opening speak-tag regex of line 60 (IGNORECASE): an
opening bracket, the word speak, zero or more non-bracket characters and
a closing bracket, anywhere in the text (it also matches longer tag names
such as speaker, exactly as the source regex does). -/
def hasSpeakOpen : List Char → Bool
  | [] => false
  | c :: rest =>
    (decide (c = '<') &&
      (match speakHead rest with
       | some r => scanGt r
       | none => false)) || hasSpeakOpen rest

/-- Characters our XML model allows in element and attribute names. -/
def isNameChar (c : Char) : Bool :=
  c.isAlphanum || c = '-' || c = '_' || c = ':' || c = '.'

/-- Skip to the closing quote character q; returns the remainder after
it, or none when the quote never closes. -/
def splitQuoted (q : Char) : List Char → Option (List Char)
  | [] => none
  | c :: rest => if c = q then some rest else splitQuoted q rest

/-- Modelled from the well-formedness rules xml.etree.ElementTree.fromstring
(an external collaborator of src/app.py line 62) enforces inside a start
tag after the element name: whitespace-separated attributes of the form
name, equals sign, quoted value, until the tag ends plainly (false) or
self-closes (true); none on malformed attribute text.  Declarations,
comments and entity references, which the service inputs under test never
contain, are not modelled. -/
def lexAttrs (fuel : Nat) (cs : List Char) : Option (Bool × List Char) :=
  match fuel with
  | 0 => none
  | fuel + 1 =>
    match cs with
    | [] => none
    | c :: rest =>
      if c = '>' then some (false, rest)
      else if c = '/' then
        match rest with
        | c2 :: rest2 => if c2 = '>' then some (true, rest2) else none
        | [] => none
      else if c.isWhitespace then lexAttrs fuel rest
      else if isNameChar c then
        let rest1 := rest.dropWhile isNameChar
        let rest2 := rest1.dropWhile Char.isWhitespace
        match rest2 with
        | c3 :: rest3 =>
          if c3 = '=' then
            let rest4 := rest3.dropWhile Char.isWhitespace
            match rest4 with
            | q :: rest5 =>
              if q.toNat = 34 ∨ q.toNat = 39 then
                match splitQuoted q rest5 with
                | some rest6 => lexAttrs fuel rest6
                | none => none
              else none
            | [] => none
          else none
        | [] => none
      else none

/-- Modelled from the well-formedness check xml.etree.ElementTree.fromstring
performs (external collaborator): one pass over the document keeping the
stack of open element names; start tags push, end tags must match the top
and pop, self-closing tags pass; exactly one root element, and character
data outside the root only when it is whitespace.  Fuel is consumed one
unit per character so the input length plus one always suffices. -/
def xmlScan (fuel : Nat) (cs : List Char) (stack : List (List Char))
    (rootDone : Bool) : Bool :=
  match fuel with
  | 0 => false
  | fuel + 1 =>
    match cs with
    | [] => stack.isEmpty && rootDone
    | c :: rest =>
      if c = '<' then
        match rest with
        | c1 :: rest0 =>
          if c1 = '/' then
            let name := rest0.takeWhile isNameChar
            let rest1 := (rest0.dropWhile isNameChar).dropWhile Char.isWhitespace
            match rest1, stack with
            | c2 :: rest2, top :: stk =>
              if c2 = '>' ∧ name ≠ [] ∧ name = top then
                xmlScan fuel rest2 stk (rootDone || stk.isEmpty)
              else false
            | _, _ => false
          else
            let name := rest.takeWhile isNameChar
            let rest1 := rest.dropWhile isNameChar
            if name = [] then false
            else if stack.isEmpty && rootDone then false
            else
              match lexAttrs (rest1.length + 1) rest1 with
              | none => false
              | some (selfClosing, rest2) =>
                if selfClosing then
                  xmlScan fuel rest2 stack (rootDone || stack.isEmpty)
                else xmlScan fuel rest2 (name :: stack) rootDone
        | [] => false
      else if stack.isEmpty then
        if c.isWhitespace then xmlScan fuel rest stack rootDone else false
      else xmlScan fuel rest stack rootDone

/-- Well-formedness of a whole document, the ParseError test of the
source: scan from an empty stack with no root seen yet. -/
def xmlWellFormed (cs : List Char) : Bool :=
  xmlScan (cs.length + 1) cs [] false

/-- is_valid_ssml (src/app.py lines 57 to 65): unless some opening
speak tag occurs anywhere, wrap the text in a speak root, then the
document must be well-formed XML. -/
def is_valid_ssml (cs : List Char) : Bool :=
  xmlWellFormed
    (if hasSpeakOpen cs then cs
     else chars "<speak>" ++ cs ++ chars "</speak>")

/-- Does the pattern occur at the head of the list. -/
def headMatches : List Char → List Char → Bool
  | [], _ => true
  | _ :: _, [] => false
  | p :: ps, c :: cs => p = c && headMatches ps cs

/-- Python str.replace(old, new) for a non-empty pattern: scan left to
right, rewriting non-overlapping occurrences.  Fuel is consumed one unit
per step and each step consumes at least one character, so the input
length plus one always suffices; the fuel-exhausted branch is never
reached from replaceAll. -/
def replaceAllF : Nat → List Char → List Char → List Char → List Char
  | 0, _, _, s => s
  | _ + 1, _, _, [] => []
  | fuel + 1, pat, rep, c :: rest =>
    if pat ≠ [] ∧ headMatches pat (c :: rest) = true then
      rep ++ replaceAllF fuel pat rep ((c :: rest).drop pat.length)
    else
      c :: replaceAllF fuel pat rep rest

/-- Python str.replace(old, new) with sufficient fuel. -/
def replaceAll (pat rep s : List Char) : List Char :=
  replaceAllF (s.length + 1) pat rep s

/-- The robotic plain-text rewrite of src/app.py lines 188 to 194:
replace the exclamation mark by a period, the question mark by a period,
and finally replace period-space by period-space, a literal identity the
source nevertheless performs. -/
def roboticText (cs : List Char) : List Char :=
  replaceAll (chars ". ") (chars ". ")
    (replaceAll ['?'] ['.'] (replaceAll ['!'] ['.'] cs))

/-- The corrective example the source puts in the invalid-markup error
payload (src/app.py line 181). -/
def markupExample : List Char :=
  chars "<speak>Hello <break time=" ++ [Char.ofNat 39] ++ chars "500ms" ++
    [Char.ofNat 39] ++ chars "/>world</speak>"

/-- data.get of the text field with default empty, then str.strip
(src/app.py line 128). -/
def trimmedText (req : SpeakRequest) : List Char :=
  pyStrip (req.text.getD [])

/-- data.get of the voice field with its default (line 137). -/
def voiceOf (req : SpeakRequest) : String :=
  req.voice.getD "en-US-SteffanNeural"

/-- The rate after the word-value conversion of line 157 (default from
line 138). -/
def mappedRate (req : SpeakRequest) : String :=
  applyMap rate_map (req.rate.getD "+0%")

/-- The pitch after the word-value conversion of line 159 (default from
line 139). -/
def mappedPitch (req : SpeakRequest) : String :=
  applyMap pitch_map (req.pitch.getD "+0Hz")

/-- The volume after the word-value conversion of line 161 (default from
line 140). -/
def mappedVolume (req : SpeakRequest) : String :=
  applyMap volume_map (req.volume.getD "+0%")

/-- The rate after the robotic override of lines 165 to 168: overridden
only when still at the default (or the dead word value medium, which the
conversion step never leaves in place). -/
def roboticRate (req : SpeakRequest) : String :=
  if req.robotic && (mappedRate req = "+0%" || mappedRate req = "medium")
  then "+20%" else mappedRate req

/-- The pitch after the robotic override of lines 169 to 170. -/
def roboticPitch (req : SpeakRequest) : String :=
  if req.robotic && (mappedPitch req = "+0Hz" || mappedPitch req = "medium")
  then "-20Hz" else mappedPitch req

/-- The volume after the robotic override of lines 171 to 172. -/
def roboticVolume (req : SpeakRequest) : String :=
  if req.robotic && (mappedVolume req = "+0%" || mappedVolume req = "medium")
  then "+10%" else mappedVolume req

/-- The validation and normalization pipeline of the speak endpoint
(src/app.py lines 127 to 196): the first failed check yields its error,
otherwise the canonical SynthesisJob.  Check order as in the source:
missing text, text too long, invalid voice, then markup handling; on the
markup path the prosody parameters are all None and the text is passed
on untouched, on the plain path the robotic rewrite applies when the
robotic flag is set. -/
def validate (req : SpeakRequest) : Except SpeakError SynthesisJob :=
  if trimmedText req = [] then .error .missingField
  else if (trimmedText req).length > MAX_TEXT_LENGTH then .error .textTooLong
  else if voiceOf req ∉ valid_voices then .error (.invalidVoice valid_voices)
  else if hasTag (trimmedText req) then
    if is_valid_ssml (trimmedText req) = false then
      .error (.invalidMarkup markupExample)
    else
      .ok ⟨trimmedText req, voiceOf req, none, none, none, true⟩
  else
    .ok ⟨(if req.robotic then roboticText (trimmedText req)
          else trimmedText req),
         voiceOf req, some (roboticRate req), some (roboticPitch req),
         some (roboticVolume req), false⟩

/-- The flattening the robotic rewrite performs on each code point: the
exclamation mark and the question mark become a period, everything else
is untouched (the closed form of roboticText proved below). -/
def punctFlatten (c : Char) : Char :=
  if c = '!' || c = '?' then '.' else c

/-- The auto-wrap test input of the specification: the word Hello, a
self-closing break tag with a single-quoted duration attribute, the word
world, and no speak root (code point 39 is the single quote). -/
def helloBreak : List Char :=
  chars "Hello <break time=" ++ [Char.ofNat 39] ++ chars "500ms" ++
    [Char.ofNat 39] ++ chars "/>world"

/-!
### Artifact lifecycle (src/app.py lines 198 to 292)

The artifact directory is embedded as a list of (path, creation time)
entries; deletion primitives raise exactly when the path is absent, as
os.remove does, and each cleanup routine of the source wraps its work in
try/except so that no such error escapes.
-/

/-- The outcome of one engine run as generate_audio observes it
(src/app.py lines 245 to 275): the stream either raised mid-way (an
engine failure, possibly after part of the file was written) or completed
normally having written some number of audio bytes to the path. -/
inductive EngineResult where
  | failure
  | success (bytes : Nat)
  deriving DecidableEq

/-- generate_audio (src/app.py lines 245 to 275) viewed at the allocated
path: on normal completion the file holds the streamed bytes and True is
returned; on an engine exception the except block removes the partly written
file (lines 269 to 274) and False is returned.  Result: (returned flag,
file state at the path: none when absent, some size when present). -/
def generate_audio : EngineResult → Bool × Option Nat
  | .failure => (false, none)
  | .success n => (true, some n)

/-- The three ways the speak endpoint can leave its post-allocation
region (src/app.py lines 198 to 239): the 200 audio response, the 500
from a False engine return (line 206), and the 500 from the finalization
check finding the file missing or empty (line 210). -/
inductive SpeakOutcome where
  | served (size : Nat)
  | engineError
  | emptyOutput
  deriving DecidableEq

/-- The post-allocation flow of speak (src/app.py lines 198 to 225): run
generate_audio; a False return becomes the engine-failure 500 (no
deletion here, the except block of generate_audio already ran); then the
finalization check: a missing or zero-size file becomes the second 500,
returned without touching the path; otherwise the file is served with
its size as Content-Length.  Result: (outcome, final file state at the
allocated path). -/
def speak_post_alloc (res : EngineResult) : SpeakOutcome × Option Nat :=
  let r := generate_audio res
  if r.1 = false then (.engineError, r.2)
  else
    match r.2 with
    | none => (.emptyOutput, none)
    | some n => if n = 0 then (.emptyOutput, some 0) else (.served n, some n)

/-- os.path.exists restricted to the artifact directory. -/
def osExists (fs : List (String × Int)) (p : String) : Bool :=
  fs.any (fun e => e.1 == p)

/-- os.remove: deletes every entry at the path, raising (the error value)
when the path is absent. -/
def osRemove (fs : List (String × Int)) (p : String) :
    Except Unit (List (String × Int)) :=
  if osExists fs p then .ok (fs.filter (fun e => !(e.1 == p)))
  else .error ()

/-- The body of cleanup_file (src/app.py lines 228 to 235) after its 30
second sleep: remove the path when it still exists, all inside
try/except, so the error of a lost race is logged and swallowed.
Result: (directory afterwards, whether an error escaped). -/
def cleanup_file (fs : List (String × Int)) (p : String) :
    List (String × Int) × Bool :=
  match (if osExists fs p then osRemove fs p else .ok fs :
      Except Unit (List (String × Int))) with
  | .ok fs2 => (fs2, false)
  | .error _ => (fs, false)

/-- FILE_RETENTION_TIME (src/app.py line 27), in seconds. -/
def FILE_RETENTION_TIME : Int := 600

/-- cleanup_old_files (src/app.py lines 37 to 49): walk an os.listdir
snapshot (possibly stale: an entry may have vanished since, when the
short-expiry timer raced ahead), removing files older than the retention
threshold; os.path.isfile is checked first, so stale entries are skipped,
and the single try/except around the whole pass swallows any error.
Result: (directory afterwards, whether an error escaped). -/
def cleanup_old_files (now : Int) : List String → List (String × Int) →
    List (String × Int) × Bool
  | [], fs => (fs, false)
  | p :: rest, fs =>
    match fs.find? (fun e => e.1 == p) with
    | none => cleanup_old_files now rest fs
    | some e =>
      if now - e.2 > FILE_RETENTION_TIME then
        match osRemove fs p with
        | .ok fs2 => cleanup_old_files now rest fs2
        | .error _ => (fs, false)
      else cleanup_old_files now rest fs

/-- cleanup_on_exit (src/app.py lines 282 to 292): purge every file of
the snapshot that is still a file, inside one try/except that swallows
any error.  Result: (directory afterwards, whether an error escaped). -/
def cleanup_on_exit : List String → List (String × Int) →
    List (String × Int) × Bool
  | [], fs => (fs, false)
  | p :: rest, fs =>
    match fs.find? (fun e => e.1 == p) with
    | none => cleanup_on_exit rest fs
    | some _ =>
      match osRemove fs p with
      | .ok fs2 => cleanup_on_exit rest fs2
      | .error _ => (fs, false)

/-!
### Theorems: rate limiter (C1, C8)
-/

theorem pruneWindow_eq_self {now : Int} {w : List Int}
    (h : ∀ t ∈ w, now - t < windowSeconds) : pruneWindow now w = w :=
  List.filter_eq_self.mpr fun t ht => decide_eq_true (h t ht)

theorem mem_pruneWindow {now t : Int} {w : List Int}
    (h : t ∈ pruneWindow now w) : t ∈ w ∧ now - t < windowSeconds := by
  have h2 := List.mem_filter.mp h
  exact ⟨h2.1, of_decide_eq_true h2.2⟩

theorem rate_limit_check_reject {now : Int} {w : List Int}
    (h : (pruneWindow now w).length ≥ rateCeiling) :
    rate_limit_check now w = (false, pruneWindow now w) := by
  simp [rate_limit_check, h]

theorem rate_limit_check_accept {now : Int} {w : List Int}
    (h : (pruneWindow now w).length < rateCeiling) :
    rate_limit_check now w = (true, pruneWindow now w ++ [now]) := by
  have h2 : ¬ (pruneWindow now w).length ≥ rateCeiling := Nat.not_le.mpr h
  simp [rate_limit_check, h2]

/-- If every stored timestamp is within one hour of every pending call time
and the total would stay at or below the ceiling, then every pending call
is accepted and the final window is the concatenation. -/
theorem runCalls_all_accepted (times : List Int) (w : List Int)
    (hpw : (w ++ times).Pairwise (fun a b => b - a < windowSeconds))
    (hlen : w.length + times.length ≤ rateCeiling) :
    runCalls w times = (List.replicate times.length true, w ++ times) := by
  induction times generalizing w with
  | nil => simp [runCalls]
  | cons t ts ih =>
    have hcross := (List.pairwise_append.mp hpw).2.2
    have hwt : ∀ x ∈ w, t - x < windowSeconds := fun x hx =>
      hcross x hx t (List.mem_cons_self t ts)
    have hprune : pruneWindow t w = w := pruneWindow_eq_self hwt
    have hlt : (pruneWindow t w).length < rateCeiling := by
      rw [hprune]
      simp only [List.length_cons] at hlen
      omega
    have hstep : rate_limit_check t w = (true, w ++ [t]) := by
      rw [rate_limit_check_accept hlt, hprune]
    have hassoc : (w ++ [t]) ++ ts = w ++ t :: ts := by
      rw [List.append_assoc]; rfl
    have hpw2 : ((w ++ [t]) ++ ts).Pairwise (fun a b => b - a < windowSeconds) := by
      rw [hassoc]; exact hpw
    have hlen2 : (w ++ [t]).length + ts.length ≤ rateCeiling := by
      simp only [List.length_append, List.length_cons, List.length_nil]
        at hlen ⊢
      omega
    have hrec := ih (w ++ [t]) hpw2 hlen2
    simp only [runCalls, hstep, hrec, List.length_cons, List.replicate_succ, hassoc]

/--
C1.  The rate limiter first drops the timestamps that have aged a full
hour (the Python filter keeps requests with age strictly below
timedelta(hours=1)), then accepts exactly when the remaining count is
strictly below 60, appending the current timestamp exactly on acceptance;
consequently a key issuing 60 requests within one rolling hour has all 60
accepted, its 61st call inside that hour is rejected with nothing
appended, and once the oldest stored request has aged a full hour a
subsequent call is accepted and the stored window returns to exactly 60
entries: capacity freed by exactly one.
-/
theorem rate_limiter_sliding_window
    (now now2 hd : Int) (times tl : List Int)
    (h60 : times.length = rateCeiling)
    (hpw : times.Pairwise (fun a b => b - a < windowSeconds))
    (hnow : ∀ t ∈ times, now - t < windowSeconds)
    (hshape : times = hd :: tl)
    (hold : windowSeconds ≤ now2 - hd)
    (hrest : ∀ t ∈ tl, now2 - t < windowSeconds) :
    (∀ (m : Int) (v : List Int),
        ((rate_limit_check m v).1 = true ↔ (pruneWindow m v).length < rateCeiling) ∧
        (rate_limit_check m v).2 =
          pruneWindow m v ++
            (if (pruneWindow m v).length < rateCeiling then [m] else [])) ∧
    runCalls [] times = (List.replicate rateCeiling true, times) ∧
    rate_limit_check now times = (false, times) ∧
    (rate_limit_check now2 times).1 = true ∧
    (rate_limit_check now2 times).2 = tl ++ [now2] ∧
    ((rate_limit_check now2 times).2).length = rateCeiling := by
  subst hshape
  have hdrop : ¬ (now2 - hd < windowSeconds) := by omega
  have hprune2 : pruneWindow now2 (hd :: tl) = tl := by
    simp only [pruneWindow, List.filter_cons]
    rw [if_neg (by simpa using hdrop)]
    exact pruneWindow_eq_self hrest
  have htllen : tl.length + 1 = rateCeiling := by
    simpa using h60
  have hlt2 : (pruneWindow now2 (hd :: tl)).length < rateCeiling := by
    rw [hprune2]; omega
  have hstep2 := rate_limit_check_accept hlt2
  rw [hprune2] at hstep2
  refine ⟨?_, ?_, ?_, ?_, ?_, ?_⟩
  · intro m v
    by_cases hc : (pruneWindow m v).length ≥ rateCeiling
    · rw [rate_limit_check_reject hc]
      constructor
      · simp; omega
      · rw [if_neg (Nat.not_lt.mpr hc)]; simp
    · have hc2 : (pruneWindow m v).length < rateCeiling := Nat.not_le.mp hc
      rw [rate_limit_check_accept hc2]
      constructor
      · simp [hc2]
      · rw [if_pos hc2]
  · have := runCalls_all_accepted (hd :: tl) [] (by simpa using hpw)
      (by simp [h60])
    simpa [h60] using this
  · have hprune : pruneWindow now (hd :: tl) = hd :: tl := pruneWindow_eq_self hnow
    have hge : (pruneWindow now (hd :: tl)).length ≥ rateCeiling := by
      rw [hprune]; simp only [List.length_cons]; omega
    rw [rate_limit_check_reject hge, hprune]
  · rw [hstep2]
  · rw [hstep2]
  · rw [hstep2]
    simp only [List.length_append, List.length_singleton]
    omega

/-- Witness for C1: 60 calls at seconds 0..59 are all accepted, a 61st call
at second 3599 is rejected, and a call at second 3600 (the oldest request
now a full hour old) is accepted, restoring a 60-entry window. -/
theorem rate_limiter_sliding_window_witness :
    (∀ (m : Int) (v : List Int),
        ((rate_limit_check m v).1 = true ↔ (pruneWindow m v).length < rateCeiling) ∧
        (rate_limit_check m v).2 =
          pruneWindow m v ++
            (if (pruneWindow m v).length < rateCeiling then [m] else [])) ∧
    runCalls [] ((List.range 60).map (fun n => (n : Int))) =
      (List.replicate rateCeiling true, (List.range 60).map (fun n => (n : Int))) ∧
    rate_limit_check 3599 ((List.range 60).map (fun n => (n : Int))) =
      (false, (List.range 60).map (fun n => (n : Int))) ∧
    (rate_limit_check 3600 ((List.range 60).map (fun n => (n : Int)))).1 = true ∧
    (rate_limit_check 3600 ((List.range 60).map (fun n => (n : Int)))).2 =
      ((List.range 59).map (fun n => ((n : Int) + 1))) ++ [3600] ∧
    ((rate_limit_check 3600 ((List.range 60).map (fun n => (n : Int)))).2).length
      = rateCeiling :=
  rate_limiter_sliding_window 3599 3600 0
    ((List.range 60).map (fun n => (n : Int)))
    ((List.range 59).map (fun n => ((n : Int) + 1)))
    (by decide) (by decide) (by decide) (by decide) (by decide) (by decide)

/--
C8.  After any rate-limiter call, the stored window for the key holds only
timestamps strictly within the trailing one-hour window of the call time,
and its length is at most 60; both are preserved whatever the admission
outcome, assuming the invariant held before the call and no stored
timestamp lies in the future.
-/
theorem rate_limiter_invariant (now : Int) (w : List Int)
    (hlen : w.length ≤ rateCeiling) (hpast : ∀ t ∈ w, t ≤ now) :
    (∀ t ∈ (rate_limit_check now w).2, now - t < windowSeconds ∧ t ≤ now) ∧
    ((rate_limit_check now w).2).length ≤ rateCeiling := by
  have hmem : ∀ t ∈ pruneWindow now w, now - t < windowSeconds ∧ t ≤ now :=
    fun t ht => ⟨(mem_pruneWindow ht).2, hpast t (mem_pruneWindow ht).1⟩
  have hple : (pruneWindow now w).length ≤ w.length := List.length_filter_le _ w
  by_cases hc : (pruneWindow now w).length ≥ rateCeiling
  · constructor
    · intro t ht
      simp only [rate_limit_check, if_pos hc] at ht
      exact hmem t ht
    · simp only [rate_limit_check, if_pos hc]
      omega
  · constructor
    · intro t ht
      simp only [rate_limit_check, if_neg hc, List.mem_append,
        List.mem_singleton] at ht
      rcases ht with ht | ht
      · exact hmem t ht
      · subst ht
        exact ⟨by simp [windowSeconds], le_refl _⟩
    · simp only [rate_limit_check, if_neg hc, List.length_append,
        List.length_singleton]
      omega

/-- Witness for C8: a concrete window of two recent timestamps at call
time 10 keeps the invariant. -/
theorem rate_limiter_invariant_witness :
    (∀ t ∈ (rate_limit_check 10 [5, 9]).2, 10 - t < windowSeconds ∧ t ≤ 10) ∧
    ((rate_limit_check 10 [5, 9]).2).length ≤ rateCeiling :=
  rate_limiter_invariant 10 [5, 9] (by decide) (by decide)

/-!
### Theorems: request normalizer (C2, C4, C5, C6, C7, C10)
-/

theorem headMatches_append {pat s : List Char}
    (h : headMatches pat s = true) : pat ++ s.drop pat.length = s := by
  induction pat generalizing s with
  | nil => simp
  | cons p ps ih =>
    cases s with
    | nil => simp [headMatches] at h
    | cons c cs =>
      simp only [headMatches, Bool.and_eq_true, decide_eq_true_eq] at h
      obtain ⟨h1, h2⟩ := h
      simp only [List.length_cons, List.drop_succ_cons, List.cons_append]
      rw [h1, ih h2]

theorem replaceAllF_single (p r : Char) : ∀ (fuel : Nat) (s : List Char),
    s.length < fuel →
    replaceAllF fuel [p] [r] s = s.map (fun c => if c = p then r else c) := by
  intro fuel
  induction fuel with
  | zero => intro s h; omega
  | succ fuel ih =>
    intro s h
    cases s with
    | nil => simp [replaceAllF]
    | cons c rest =>
      simp only [List.length_cons] at h
      by_cases hc : c = p
      · have hm : headMatches [p] (c :: rest) = true := by
          simp [headMatches, hc]
        rw [replaceAllF, if_pos ⟨by simp, hm⟩]
        simp only [List.length_cons, List.length_nil, Nat.zero_add,
          List.drop_succ_cons, List.drop_zero, List.map_cons]
        rw [ih rest (by omega), if_pos hc]
        rfl
      · have hm : ¬ ([p] ≠ [] ∧ headMatches [p] (c :: rest) = true) := by
          simp [headMatches, hc]
          intro hpc
          exact absurd hpc.symm hc
        rw [replaceAllF, if_neg hm]
        simp only [List.map_cons]
        rw [ih rest (by omega), if_neg hc]

theorem replaceAllF_self {pat : List Char} (hp : pat ≠ []) :
    ∀ (fuel : Nat) (s : List Char), s.length < fuel →
    replaceAllF fuel pat pat s = s := by
  intro fuel
  induction fuel with
  | zero => intro s h; omega
  | succ fuel ih =>
    intro s h
    cases s with
    | nil => simp [replaceAllF]
    | cons c rest =>
      simp only [List.length_cons] at h
      by_cases hm : headMatches pat (c :: rest) = true
      · rw [replaceAllF, if_pos ⟨hp, hm⟩]
        have hlen : ((c :: rest).drop pat.length).length < fuel := by
          simp only [List.length_drop, List.length_cons]
          have hp1 : 0 < pat.length := List.length_pos.mpr hp
          omega
        rw [ih _ hlen]
        exact headMatches_append hm
      · rw [replaceAllF, if_neg (fun hc => hm hc.2)]
        rw [ih rest (by omega)]

theorem replaceAll_single (p r : Char) (s : List Char) :
    replaceAll [p] [r] s = s.map (fun c => if c = p then r else c) :=
  replaceAllF_single p r _ s (by omega)

theorem replaceAll_self {pat : List Char} (hp : pat ≠ []) (s : List Char) :
    replaceAll pat pat s = s :=
  replaceAllF_self hp _ s (by omega)

theorem punctFlatten_comp (c : Char) :
    (if (if c = '!' then '.' else c) = '?' then '.'
     else (if c = '!' then '.' else c)) = punctFlatten c := by
  by_cases h1 : c = '!'
  · subst h1; decide
  · by_cases h2 : c = '?'
    · subst h2; decide
    · simp [punctFlatten, h1, h2]

/-- Closed form of the robotic rewrite: flatten each code point. -/
theorem roboticText_eq_map (cs : List Char) :
    roboticText cs = cs.map punctFlatten := by
  unfold roboticText
  rw [replaceAll_self (by decide), replaceAll_single, replaceAll_single,
    List.map_map]
  exact List.map_congr_left fun c _ => punctFlatten_comp c

theorem punctFlatten_ne (c : Char) :
    punctFlatten c ≠ '!' ∧ punctFlatten c ≠ '?' := by
  by_cases h1 : c = '!'
  · subst h1; decide
  · by_cases h2 : c = '?'
    · subst h2; decide
    · unfold punctFlatten
      rw [if_neg (by simp [h1, h2])]
      exact ⟨h1, h2⟩

/--
C2.  Every produced SynthesisJob flagged as raw markup carries no
prosody parameter at all — rate, pitch and volume are all None — and its
final text is the validated (stripped) caller text itself, untouched by
the robotic punctuation rewrite, whatever the robotic flag and the
rate, pitch and volume inputs were.
-/
theorem markup_prosody_exclusive (req : SpeakRequest) (job : SynthesisJob)
    (h : validate req = .ok job) (hm : job.isRawMarkup = true) :
    job.rate = none ∧ job.pitch = none ∧ job.volume = none ∧
    job.finalText = trimmedText req := by
  unfold validate at h
  split at h
  · exact Except.noConfusion h
  split at h
  · exact Except.noConfusion h
  split at h
  · exact Except.noConfusion h
  split at h
  · split at h
    · exact Except.noConfusion h
    · injection h with h2
      subst h2
      exact ⟨rfl, rfl, rfl, rfl⟩
  · injection h with h2
    subst h2
    simp at hm

/-- Witness for C2: markup input with the robotic flag set and all three
prosody words supplied still yields a job with no prosody parameters and
the text passed through with its exclamation mark intact. -/
theorem markup_prosody_exclusive_witness :
    (⟨chars "<speak>Hi!</speak>", "en-US-SteffanNeural",
        none, none, none, true⟩ : SynthesisJob).rate = none ∧
    (⟨chars "<speak>Hi!</speak>", "en-US-SteffanNeural",
        none, none, none, true⟩ : SynthesisJob).pitch = none ∧
    (⟨chars "<speak>Hi!</speak>", "en-US-SteffanNeural",
        none, none, none, true⟩ : SynthesisJob).volume = none ∧
    (⟨chars "<speak>Hi!</speak>", "en-US-SteffanNeural",
        none, none, none, true⟩ : SynthesisJob).finalText =
      trimmedText ⟨some (chars "<speak>Hi!</speak>"), none, some "fast",
        some "high", some "loud", true⟩ :=
  markup_prosody_exclusive
    ⟨some (chars "<speak>Hi!</speak>"), none, some "fast", some "high",
      some "loud", true⟩
    ⟨chars "<speak>Hi!</speak>", "en-US-SteffanNeural",
      none, none, none, true⟩
    (by decide) rfl

/--
C4.  On non-markup input with the robotic flag set, each prosody value is
overridden (rate to +20 percent, pitch to -20Hz, volume to +10 percent)
only when it is still at its default value after the word-value
conversion (or the dead word value medium), an explicit caller override
being preserved; and the final text is the stripped text with every
exclamation mark and question mark rewritten to a period.
-/
theorem robotic_non_clobber (req : SpeakRequest) (job : SynthesisJob)
    (hr : req.robotic = true)
    (h : validate req = .ok job) (hm : job.isRawMarkup = false) :
    (mappedRate req ≠ "+0%" → mappedRate req ≠ "medium" →
        job.rate = some (mappedRate req)) ∧
    (mappedRate req = "+0%" → job.rate = some "+20%") ∧
    (mappedPitch req ≠ "+0Hz" → mappedPitch req ≠ "medium" →
        job.pitch = some (mappedPitch req)) ∧
    (mappedPitch req = "+0Hz" → job.pitch = some "-20Hz") ∧
    (mappedVolume req ≠ "+0%" → mappedVolume req ≠ "medium" →
        job.volume = some (mappedVolume req)) ∧
    (mappedVolume req = "+0%" → job.volume = some "+10%") ∧
    job.finalText = (trimmedText req).map punctFlatten ∧
    '!' ∉ job.finalText ∧ '?' ∉ job.finalText := by
  unfold validate at h
  split at h
  · exact Except.noConfusion h
  split at h
  · exact Except.noConfusion h
  split at h
  · exact Except.noConfusion h
  split at h
  · split at h
    · exact Except.noConfusion h
    · injection h with h2
      subst h2
      simp at hm
  · injection h with h2
    subst h2
    refine ⟨?_, ?_, ?_, ?_, ?_, ?_, ?_, ?_, ?_⟩
    · intro hna hnb
      show (some (roboticRate req) = _)
      unfold roboticRate
      rw [if_neg (by simp [hr, hna, hnb])]
    · intro ha
      show (some (roboticRate req) = _)
      unfold roboticRate
      rw [if_pos (by simp [hr, ha])]
    · intro hna hnb
      show (some (roboticPitch req) = _)
      unfold roboticPitch
      rw [if_neg (by simp [hr, hna, hnb])]
    · intro ha
      show (some (roboticPitch req) = _)
      unfold roboticPitch
      rw [if_pos (by simp [hr, ha])]
    · intro hna hnb
      show (some (roboticVolume req) = _)
      unfold roboticVolume
      rw [if_neg (by simp [hr, hna, hnb])]
    · intro ha
      show (some (roboticVolume req) = _)
      unfold roboticVolume
      rw [if_pos (by simp [hr, ha])]
    · show roboticText (trimmedText req) = (trimmedText req).map punctFlatten
      exact roboticText_eq_map _
    · show '!' ∉ roboticText (trimmedText req)
      rw [roboticText_eq_map]
      intro hmem
      obtain ⟨c, _, hc⟩ := List.mem_map.mp hmem
      exact (punctFlatten_ne c).1 hc
    · show '?' ∉ roboticText (trimmedText req)
      rw [roboticText_eq_map]
      intro hmem
      obtain ⟨c, _, hc⟩ := List.mem_map.mp hmem
      exact (punctFlatten_ne c).2 hc

/-- Witness for C4, the test vector of the specification: text Hi with an
exclamation mark, robotic set, rate +30 percent — the caller rate is
preserved and the text becomes Hi followed by a period. -/
theorem robotic_non_clobber_witness :
    (mappedRate ⟨some (chars "Hi!"), none, some "+30%", none, none, true⟩
        ≠ "+0%" →
     mappedRate ⟨some (chars "Hi!"), none, some "+30%", none, none, true⟩
        ≠ "medium" →
     (⟨chars "Hi.", "en-US-SteffanNeural", some "+30%", some "-20Hz",
        some "+10%", false⟩ : SynthesisJob).rate =
       some (mappedRate
         ⟨some (chars "Hi!"), none, some "+30%", none, none, true⟩)) ∧
    (mappedRate ⟨some (chars "Hi!"), none, some "+30%", none, none, true⟩
        = "+0%" →
     (⟨chars "Hi.", "en-US-SteffanNeural", some "+30%", some "-20Hz",
        some "+10%", false⟩ : SynthesisJob).rate = some "+20%") ∧
    (mappedPitch ⟨some (chars "Hi!"), none, some "+30%", none, none, true⟩
        ≠ "+0Hz" →
     mappedPitch ⟨some (chars "Hi!"), none, some "+30%", none, none, true⟩
        ≠ "medium" →
     (⟨chars "Hi.", "en-US-SteffanNeural", some "+30%", some "-20Hz",
        some "+10%", false⟩ : SynthesisJob).pitch =
       some (mappedPitch
         ⟨some (chars "Hi!"), none, some "+30%", none, none, true⟩)) ∧
    (mappedPitch ⟨some (chars "Hi!"), none, some "+30%", none, none, true⟩
        = "+0Hz" →
     (⟨chars "Hi.", "en-US-SteffanNeural", some "+30%", some "-20Hz",
        some "+10%", false⟩ : SynthesisJob).pitch = some "-20Hz") ∧
    (mappedVolume ⟨some (chars "Hi!"), none, some "+30%", none, none, true⟩
        ≠ "+0%" →
     mappedVolume ⟨some (chars "Hi!"), none, some "+30%", none, none, true⟩
        ≠ "medium" →
     (⟨chars "Hi.", "en-US-SteffanNeural", some "+30%", some "-20Hz",
        some "+10%", false⟩ : SynthesisJob).volume =
       some (mappedVolume
         ⟨some (chars "Hi!"), none, some "+30%", none, none, true⟩)) ∧
    (mappedVolume ⟨some (chars "Hi!"), none, some "+30%", none, none, true⟩
        = "+0%" →
     (⟨chars "Hi.", "en-US-SteffanNeural", some "+30%", some "-20Hz",
        some "+10%", false⟩ : SynthesisJob).volume = some "+10%") ∧
    (⟨chars "Hi.", "en-US-SteffanNeural", some "+30%", some "-20Hz",
        some "+10%", false⟩ : SynthesisJob).finalText =
      (trimmedText
        ⟨some (chars "Hi!"), none, some "+30%", none, none, true⟩).map
        punctFlatten ∧
    '!' ∉ (⟨chars "Hi.", "en-US-SteffanNeural", some "+30%", some "-20Hz",
        some "+10%", false⟩ : SynthesisJob).finalText ∧
    '?' ∉ (⟨chars "Hi.", "en-US-SteffanNeural", some "+30%", some "-20Hz",
        some "+10%", false⟩ : SynthesisJob).finalText :=
  robotic_non_clobber
    ⟨some (chars "Hi!"), none, some "+30%", none, none, true⟩
    ⟨chars "Hi.", "en-US-SteffanNeural", some "+30%", some "-20Hz",
      some "+10%", false⟩
    rfl (by decide) rfl

/--
C5.  When the text holds a tag-shaped substring it is validated as
markup: well-formedness is checked after wrapping the text in a speak
root whenever no opening speak tag is present; text failing the check
even after wrapping is rejected as invalid markup, the error carrying
the corrective example, while text passing it yields a raw-markup job.
The two boundary inputs of the specification behave as stated: the
Hello-break-world text (no speak root) is treated as valid markup after
implicit wrapping, and an unterminated speak tag is rejected.
-/
theorem markup_autowrap (req : SpeakRequest)
    (h1 : trimmedText req ≠ [])
    (h2 : ¬ (trimmedText req).length > MAX_TEXT_LENGTH)
    (h3 : voiceOf req ∈ valid_voices)
    (h4 : hasTag (trimmedText req) = true) :
    (is_valid_ssml (trimmedText req) =
      xmlWellFormed
        (if hasSpeakOpen (trimmedText req) then trimmedText req
         else chars "<speak>" ++ trimmedText req ++ chars "</speak>")) ∧
    (is_valid_ssml (trimmedText req) = false →
      validate req = .error (.invalidMarkup markupExample)) ∧
    (is_valid_ssml (trimmedText req) = true →
      validate req = .ok ⟨trimmedText req, voiceOf req,
        none, none, none, true⟩) ∧
    hasSpeakOpen helloBreak = false ∧
    is_valid_ssml helloBreak = true ∧
    hasSpeakOpen (chars "<speak>unterminated") = true ∧
    is_valid_ssml (chars "<speak>unterminated") = false := by
  have hvalid : ∀ r : Except SpeakError SynthesisJob,
      (trimmedText req ≠ [] → ¬ (trimmedText req).length > MAX_TEXT_LENGTH →
        voiceOf req ∈ valid_voices → hasTag (trimmedText req) = true →
        (if is_valid_ssml (trimmedText req) = false then
          (.error (.invalidMarkup markupExample) :
            Except SpeakError SynthesisJob)
         else .ok ⟨trimmedText req, voiceOf req, none, none, none, true⟩)
          = r) →
      validate req = r := by
    intro r hr
    unfold validate
    rw [if_neg h1, if_neg h2, if_neg (not_not_intro h3), if_pos h4]
    exact hr h1 h2 h3 h4
  refine ⟨rfl, ?_, ?_, by decide, by decide, by decide, by decide⟩
  · intro hs
    exact hvalid _ (fun _ _ _ _ => by rw [if_pos hs])
  · intro hs
    exact hvalid _ (fun _ _ _ _ => by
      rw [if_neg (by rw [hs]; exact fun hc => Bool.noConfusion hc)])

/-- Witness for C5: the specification test vector itself, submitted as
the request text with every other field defaulted, is validated as raw
markup after implicit wrapping. -/
theorem markup_autowrap_witness :
    (is_valid_ssml (trimmedText
        ⟨some helloBreak, none, none, none, none, false⟩) =
      xmlWellFormed
        (if hasSpeakOpen (trimmedText
            ⟨some helloBreak, none, none, none, none, false⟩) then
          trimmedText ⟨some helloBreak, none, none, none, none, false⟩
         else chars "<speak>" ++
            trimmedText ⟨some helloBreak, none, none, none, none, false⟩ ++
            chars "</speak>")) ∧
    (is_valid_ssml (trimmedText
        ⟨some helloBreak, none, none, none, none, false⟩) = false →
      validate ⟨some helloBreak, none, none, none, none, false⟩ =
        .error (.invalidMarkup markupExample)) ∧
    (is_valid_ssml (trimmedText
        ⟨some helloBreak, none, none, none, none, false⟩) = true →
      validate ⟨some helloBreak, none, none, none, none, false⟩ =
        .ok ⟨trimmedText ⟨some helloBreak, none, none, none, none, false⟩,
          voiceOf ⟨some helloBreak, none, none, none, none, false⟩,
          none, none, none, true⟩) ∧
    hasSpeakOpen helloBreak = false ∧
    is_valid_ssml helloBreak = true ∧
    hasSpeakOpen (chars "<speak>unterminated") = true ∧
    is_valid_ssml (chars "<speak>unterminated") = false :=
  markup_autowrap ⟨some helloBreak, none, none, none, none, false⟩
    (by decide) (by decide) (by decide) (by decide)

/--
C6.  Each named prosody level is translated through its fixed lookup
table into the engine-formatted value — all sixteen table entries listed
— and any value that is not a key of its table, raw strings of arbitrary
shape included, passes through entirely unchanged, no validation applied
to its shape.
-/
theorem named_level_mapping :
    (∀ (m : List (String × String)) (v : String),
      m.lookup v = none → applyMap m v = v) ∧
    applyMap rate_map "x-slow" = "-50%" ∧
    applyMap rate_map "slow" = "-25%" ∧
    applyMap rate_map "medium" = "+0%" ∧
    applyMap rate_map "fast" = "+25%" ∧
    applyMap rate_map "x-fast" = "+50%" ∧
    applyMap pitch_map "x-low" = "-50Hz" ∧
    applyMap pitch_map "low" = "-25Hz" ∧
    applyMap pitch_map "medium" = "+0Hz" ∧
    applyMap pitch_map "high" = "+25Hz" ∧
    applyMap pitch_map "x-high" = "+50Hz" ∧
    applyMap volume_map "silent" = "-100%" ∧
    applyMap volume_map "x-soft" = "-50%" ∧
    applyMap volume_map "soft" = "-25%" ∧
    applyMap volume_map "medium" = "+0%" ∧
    applyMap volume_map "loud" = "+25%" ∧
    applyMap volume_map "x-loud" = "+50%" ∧
    applyMap rate_map "+37%" = "+37%" := by
  refine ⟨?_, ?_⟩
  · intro m v h
    unfold applyMap
    rw [h]
  · decide

/-- Witness for C6: unrecognized raw values for each of the three
parameters pass through the conversion unchanged. -/
theorem named_level_mapping_witness :
    applyMap rate_map "+37%" = "+37%" ∧
    applyMap pitch_map "-3Hz" = "-3Hz" ∧
    applyMap volume_map "loudish" = "loudish" :=
  ⟨named_level_mapping.1 rate_map "+37%" (by decide),
   named_level_mapping.1 pitch_map "-3Hz" (by decide),
   named_level_mapping.1 volume_map "loudish" (by decide)⟩

/--
C7.  A text field absent or whitespace-only (empty after stripping) is
rejected as a missing field, before any length check; otherwise stripped
text of length up to 5000 code points is never rejected for its length
(in particular length exactly 5000 passes both the missing-field and the
too-long check), while stripped length 5001 or more is rejected as text
too long.
-/
theorem text_length_boundary (req : SpeakRequest) :
    (trimmedText req = [] → validate req = .error .missingField) ∧
    (trimmedText req ≠ [] → (trimmedText req).length ≤ MAX_TEXT_LENGTH →
      validate req ≠ .error .missingField ∧
      validate req ≠ .error .textTooLong) ∧
    (trimmedText req ≠ [] → (trimmedText req).length > MAX_TEXT_LENGTH →
      validate req = .error .textTooLong) := by
  refine ⟨?_, ?_, ?_⟩
  · intro h0
    unfold validate
    rw [if_pos h0]
  · intro h0 h5
    unfold validate
    rw [if_neg h0, if_neg (by omega : ¬ (trimmedText req).length > MAX_TEXT_LENGTH)]
    constructor
    · intro hc
      split at hc
      · exact SpeakError.noConfusion (Except.error.inj hc)
      · split at hc
        · split at hc
          · exact SpeakError.noConfusion (Except.error.inj hc)
          · exact Except.noConfusion hc
        · exact Except.noConfusion hc
    · intro hc
      split at hc
      · exact SpeakError.noConfusion (Except.error.inj hc)
      · split at hc
        · split at hc
          · exact SpeakError.noConfusion (Except.error.inj hc)
          · exact Except.noConfusion hc
        · exact Except.noConfusion hc
  · intro h0 h5
    unfold validate
    rw [if_neg h0, if_pos h5]

/-- Witness for C7: a whitespace-only text is rejected as missing, a
5000-character text passes both the missing and the length check, and a
5001-character text is rejected as too long. -/
theorem text_length_boundary_witness :
    validate ⟨some (chars "   "), none, none, none, none, false⟩ =
      .error .missingField ∧
    (validate ⟨some (List.replicate 5000 'a'), none, none, none, none,
        false⟩ ≠ .error .missingField ∧
     validate ⟨some (List.replicate 5000 'a'), none, none, none, none,
        false⟩ ≠ .error .textTooLong) ∧
    validate ⟨some (List.replicate 5001 'a'), none, none, none, none,
        false⟩ = .error .textTooLong := by
  have hstrip : ∀ n : Nat,
      pyStrip (List.replicate n 'a') = List.replicate n 'a' := by
    intro n
    have hdrop : List.dropWhile Char.isWhitespace (List.replicate n 'a') =
        List.replicate n 'a' := by
      cases n with
      | zero => rfl
      | succ n =>
        rw [List.replicate_succ, List.dropWhile_cons]
        rw [if_neg (by decide)]
    unfold pyStrip
    rw [hdrop, List.reverse_replicate, hdrop, List.reverse_replicate]
  have htrim : ∀ n : Nat,
      trimmedText ⟨some (List.replicate n 'a'), none, none, none, none,
        false⟩ = List.replicate n 'a' := fun n => hstrip n
  refine ⟨(text_length_boundary _).1 (by decide), ?_, ?_⟩
  · apply (text_length_boundary _).2.1
    · rw [htrim 5000]
      apply List.ne_nil_of_length_pos
      rw [List.length_replicate]
      omega
    · rw [htrim 5000, List.length_replicate]
      unfold MAX_TEXT_LENGTH
      omega
  · apply (text_length_boundary _).2.2
    · rw [htrim 5001]
      apply List.ne_nil_of_length_pos
      rw [List.length_replicate]
      omega
    · rw [htrim 5001, List.length_replicate]
      unfold MAX_TEXT_LENGTH
      omega

/--
C10.  A request that omits the voice field is given the voice
en-US-SteffanNeural, which is in the allowed set, so the request is
never rejected for its voice; omitted rate, pitch and volume default to
the neutral engine values, and those defaults count as the medium or
default values for the robotic override: with the robotic flag they are
overridden, without it they stay neutral.
-/
theorem default_parameters (req : SpeakRequest)
    (hv : req.voice = none) (hr : req.rate = none)
    (hp : req.pitch = none) (hvol : req.volume = none) :
    voiceOf req = "en-US-SteffanNeural" ∧
    voiceOf req ∈ valid_voices ∧
    (∀ e : SpeakError, validate req = .error e →
      e ≠ .invalidVoice valid_voices) ∧
    mappedRate req = "+0%" ∧ mappedPitch req = "+0Hz" ∧
    mappedVolume req = "+0%" ∧
    (req.robotic = true → roboticRate req = "+20%" ∧
      roboticPitch req = "-20Hz" ∧ roboticVolume req = "+10%") ∧
    (req.robotic = false → roboticRate req = "+0%" ∧
      roboticPitch req = "+0Hz" ∧ roboticVolume req = "+0%") := by
  have hvoice : voiceOf req = "en-US-SteffanNeural" := by
    unfold voiceOf
    rw [hv]
    rfl
  have hmem : voiceOf req ∈ valid_voices := by
    rw [hvoice]
    decide
  have hmr : mappedRate req = "+0%" := by
    unfold mappedRate
    rw [hr]
    decide
  have hmp : mappedPitch req = "+0Hz" := by
    unfold mappedPitch
    rw [hp]
    decide
  have hmv : mappedVolume req = "+0%" := by
    unfold mappedVolume
    rw [hvol]
    decide
  refine ⟨hvoice, hmem, ?_, hmr, hmp, hmv, ?_, ?_⟩
  · intro e he
    unfold validate at he
    rw [if_neg (not_not_intro hmem)] at he
    split at he
    · have h2 := Except.error.inj he
      subst h2
      exact fun hc => SpeakError.noConfusion hc
    split at he
    · have h2 := Except.error.inj he
      subst h2
      exact fun hc => SpeakError.noConfusion hc
    split at he
    · split at he
      · have h2 := Except.error.inj he
        subst h2
        exact fun hc => SpeakError.noConfusion hc
      · exact Except.noConfusion he
    · exact Except.noConfusion he
  · intro hb
    refine ⟨?_, ?_, ?_⟩
    · unfold roboticRate
      rw [if_pos (by simp [hb, hmr])]
    · unfold roboticPitch
      rw [if_pos (by simp [hb, hmp])]
    · unfold roboticVolume
      rw [if_pos (by simp [hb, hmv])]
  · intro hb
    refine ⟨?_, ?_, ?_⟩
    · unfold roboticRate
      rw [if_neg (by simp [hb]), hmr]
    · unfold roboticPitch
      rw [if_neg (by simp [hb]), hmp]
    · unfold roboticVolume
      rw [if_neg (by simp [hb]), hmv]

/-- Witness for C10: a request supplying only a text and the robotic
flag gets the default voice, is not rejected for its voice, and the
default prosody values are overridden by the robotic settings. -/
theorem default_parameters_witness :
    voiceOf ⟨some (chars "Hello"), none, none, none, none, true⟩ =
      "en-US-SteffanNeural" ∧
    voiceOf ⟨some (chars "Hello"), none, none, none, none, true⟩ ∈
      valid_voices ∧
    (∀ e : SpeakError,
      validate ⟨some (chars "Hello"), none, none, none, none, true⟩ =
        .error e → e ≠ .invalidVoice valid_voices) ∧
    mappedRate ⟨some (chars "Hello"), none, none, none, none, true⟩ =
      "+0%" ∧
    mappedPitch ⟨some (chars "Hello"), none, none, none, none, true⟩ =
      "+0Hz" ∧
    mappedVolume ⟨some (chars "Hello"), none, none, none, none, true⟩ =
      "+0%" ∧
    ((⟨some (chars "Hello"), none, none, none, none, true⟩ :
        SpeakRequest).robotic = true →
      roboticRate ⟨some (chars "Hello"), none, none, none, none, true⟩ =
        "+20%" ∧
      roboticPitch ⟨some (chars "Hello"), none, none, none, none, true⟩ =
        "-20Hz" ∧
      roboticVolume ⟨some (chars "Hello"), none, none, none, none, true⟩ =
        "+10%") ∧
    ((⟨some (chars "Hello"), none, none, none, none, true⟩ :
        SpeakRequest).robotic = false →
      roboticRate ⟨some (chars "Hello"), none, none, none, none, true⟩ =
        "+0%" ∧
      roboticPitch ⟨some (chars "Hello"), none, none, none, none, true⟩ =
        "+0Hz" ∧
      roboticVolume ⟨some (chars "Hello"), none, none, none, none, true⟩ =
        "+0%") :=
  default_parameters ⟨some (chars "Hello"), none, none, none, none, true⟩
    rfl rfl rfl rfl

/-!
### Theorems: artifact lifecycle (C3, C9)
-/

/--
Counterexample to C3 as stated: against a stub engine that completes
normally having written zero bytes, the endpoint returns the
finalization-check 500 (empty output), yet the zero-size artifact at the
allocated path is not removed — the file still exists when the error
returns, contradicting the claim that the partly written artifact is
removed before any error return.
-/
theorem empty_output_file_not_removed :
    (speak_post_alloc (.success 0)).1 = .emptyOutput ∧
    (speak_post_alloc (.success 0)).2 = some 0 ∧
    (speak_post_alloc (.success 0)).2 ≠ none := by decide

/--
C3 amended: every post-allocation failure — engine failure, or the
finalization check finding the file missing or empty — yields a 500
error response and never a 200; on engine failure the partly written artifact
is removed (by the except block of generate_audio) before the error
returns, but on the zero-size finalization failure the empty file is
left in place at the allocated path, reachable only by the later sweep;
nonzero engine output is served with its size.
-/
theorem failed_synthesis_cleanup (res : EngineResult) :
    ((speak_post_alloc res).1 = .engineError ∨
        (speak_post_alloc res).1 = .emptyOutput ↔
      res = .failure ∨ res = .success 0) ∧
    (res = .failure →
      (speak_post_alloc res).1 = .engineError ∧
      (speak_post_alloc res).2 = none) ∧
    (res = .success 0 →
      (speak_post_alloc res).1 = .emptyOutput ∧
      (speak_post_alloc res).2 = some 0) ∧
    (∀ n : Nat, res = .success n → n ≠ 0 →
      (speak_post_alloc res).1 = .served n ∧
      (speak_post_alloc res).2 = some n) := by
  cases res with
  | failure =>
    refine ⟨by decide, by decide, by decide, ?_⟩
    intro n h _
    exact EngineResult.noConfusion h
  | success n =>
    by_cases hn : n = 0
    · subst hn
      refine ⟨by decide, by decide, by decide, ?_⟩
      intro m h hm
      exact absurd (EngineResult.success.inj h).symm hm
    · have hred : speak_post_alloc (.success n) = (.served n, some n) := by
        simp [speak_post_alloc, generate_audio, hn]
      refine ⟨?_, ?_, ?_, ?_⟩
      · rw [hred]
        constructor
        · intro hor
          rcases hor with h1 | h1 <;> exact SpeakOutcome.noConfusion h1
        · intro hor
          rcases hor with h1 | h1
          · exact EngineResult.noConfusion h1
          · exact absurd (EngineResult.success.inj h1) hn
      · intro h1
        exact EngineResult.noConfusion h1
      · intro h1
        exact absurd (EngineResult.success.inj h1) hn
      · intro m h1 _
        have hm := EngineResult.success.inj h1
        subst hm
        rw [hred]
        exact ⟨rfl, rfl⟩

/-- Witness for the amended C3: a failing engine leaves a 500 and no
file; an engine writing seven bytes gets served. -/
theorem failed_synthesis_cleanup_witness :
    ((speak_post_alloc .failure).1 = .engineError ∧
      (speak_post_alloc .failure).2 = none) ∧
    ((speak_post_alloc (.success 7)).1 = .served 7 ∧
      (speak_post_alloc (.success 7)).2 = some 7) :=
  ⟨(failed_synthesis_cleanup .failure).2.1 rfl,
   (failed_synthesis_cleanup (.success 7)).2.2.2 7 rfl (by decide)⟩

theorem find_none_of_not_exists {fs : List (String × Int)} {p : String}
    (h : osExists fs p = false) : fs.find? (fun e => e.1 == p) = none := by
  rw [List.find?_eq_none]
  intro x hx
  unfold osExists at h
  rw [List.any_eq_false] at h
  exact h x hx

theorem cleanup_old_files_no_error (now : Int) :
    ∀ (snapshot : List String) (fs : List (String × Int)),
    (cleanup_old_files now snapshot fs).2 = false := by
  intro snapshot
  induction snapshot with
  | nil => intro fs; rfl
  | cons p rest ih =>
    intro fs
    unfold cleanup_old_files
    split
    · exact ih fs
    · split
      · split
        · exact ih _
        · rfl
      · exact ih fs

theorem cleanup_on_exit_no_error :
    ∀ (snapshot : List String) (fs : List (String × Int)),
    (cleanup_on_exit snapshot fs).2 = false := by
  intro snapshot
  induction snapshot with
  | nil => intro fs; rfl
  | cons p rest ih =>
    intro fs
    unfold cleanup_on_exit
    split
    · exact ih fs
    · split
      · exact ih _
      · rfl

/--
C9.  Every artifact deletion operation — the post-serve timer body, the
periodic sweep, and the exit purge — tolerates the target being already
absent: none of them ever lets an error escape, and when the path does
not exist the timer body leaves the directory untouched while the sweep
and the purge simply skip a stale snapshot entry, so the racing timer
and sweep are harmless in either order.
-/
theorem deletion_idempotent (fs : List (String × Int)) (p : String)
    (now : Int) (snapshot : List String) :
    (cleanup_file fs p).2 = false ∧
    (osExists fs p = false → cleanup_file fs p = (fs, false)) ∧
    (cleanup_old_files now snapshot fs).2 = false ∧
    (osExists fs p = false →
      cleanup_old_files now (p :: snapshot) fs =
        cleanup_old_files now snapshot fs) ∧
    (cleanup_on_exit snapshot fs).2 = false ∧
    (osExists fs p = false →
      cleanup_on_exit (p :: snapshot) fs = cleanup_on_exit snapshot fs) := by
  refine ⟨?_, ?_, cleanup_old_files_no_error now snapshot fs, ?_,
    cleanup_on_exit_no_error snapshot fs, ?_⟩
  · unfold cleanup_file
    split <;> rfl
  · intro h
    unfold cleanup_file
    rw [if_neg (by rw [h]; exact fun hc => Bool.noConfusion hc)]
  · intro h
    conv_lhs => unfold cleanup_old_files
    rw [find_none_of_not_exists h]
  · intro h
    conv_lhs => unfold cleanup_on_exit
    rw [find_none_of_not_exists h]

/-- Witness for C9: a directory holding one file; deleting an absent
path raises nothing and a stale snapshot entry is skipped by sweep and
purge. -/
theorem deletion_idempotent_witness :
    (cleanup_file [("a.mp3", 0)] "b.mp3").2 = false ∧
    cleanup_file [("a.mp3", 0)] "b.mp3" = ([("a.mp3", 0)], false) ∧
    (cleanup_old_files 1000 ["a.mp3"] [("a.mp3", 0)]).2 = false ∧
    cleanup_old_files 1000 ["b.mp3", "a.mp3"] [("a.mp3", 0)] =
      cleanup_old_files 1000 ["a.mp3"] [("a.mp3", 0)] ∧
    (cleanup_on_exit ["a.mp3"] [("a.mp3", 0)]).2 = false ∧
    cleanup_on_exit ["b.mp3", "a.mp3"] [("a.mp3", 0)] =
      cleanup_on_exit ["a.mp3"] [("a.mp3", 0)] := by
  have h := deletion_idempotent [("a.mp3", 0)] "b.mp3" 1000 ["a.mp3"]
  exact ⟨h.1, h.2.1 (by decide), h.2.2.1, h.2.2.2.1 (by decide),
    h.2.2.2.2.1, h.2.2.2.2.2 (by decide)⟩

end TTSCore
